import Mathlib

/-! ## llarp: the libsodium crypto backend and service lookups

A shallow embedding of `llarp/crypto_libsodium.cpp` and `llarp/service/lookup.cpp`.

Conventions of the embedding:

* a byte string is a `List Nat`; a read of `len` bytes at a pointer `p` is `p.take len`;
  where a call reads a number of bytes at a key that the type of the key does not cover
  (`sign`, `hmac`), the bytes that follow the key in memory are an argument `beyond`;
* a libsodium primitive with an output pointer returns the bytes it writes there, paired
  with its `int` status code; the primitives themselves live outside the repository and
  are the fields of the structure `Sodium`;
* a C++ function `bool f(T *out, ...)` returns the pair of its flag and the contents of
  `*out` when it returns;
* the sizes declared in `llarp/crypto.h` and `sodium.h` are the fields of `Sizes`;
* virtual member functions (`PutLookup`, `BuildRequestMessage`, `SendRoutingMessage`) are
  parameters, and every call of one is recorded in a trace.
-/

set_option maxRecDepth 100000

namespace llarp

/-- Byte strings: the contents of a `uint8_t` region. -/
abbrev Bytes := List Nat

/-- The view `llarp_buffer_t`: the `sz` bytes found at `base`. -/
abbrev llarp_buffer_t := List Nat

/-- Sizes fixed by `llarp/crypto.h` (and `crypto_scalarmult_BYTES` by `sodium.h`). -/
structure Sizes where
  /-- The value of `sizeof(llarp_pubkey_t)`. -/
  PUBKEYSIZE : Nat
  /-- The value of `sizeof(llarp_seckey_t)`. -/
  SECKEYSIZE : Nat
  SHAREDKEYSIZE : Nat
  HASHSIZE : Nat
  /-- The value of `sizeof(llarp_hash_t)`. -/
  sizeof_llarp_hash_t : Nat
  HMACSECSIZE : Nat
  TUNNOUNCESIZE : Nat
  crypto_scalarmult_BYTES : Nat
  /-- The length of the secret key `crypto_sign_detached` reads (`sodium.h`; the `64` of
  the local `sk[64]` in `keygen`). -/
  crypto_sign_SECRETKEYBYTES : Nat

/-- The libsodium primitives called by `crypto_libsodium.cpp`.  `St` is
`crypto_generichash_state`; `W` is the process-wide state of the library (whether it is
initialised, and its random source). -/
structure Sodium (St W : Type) where
  /-- Call `crypto_stream_xchacha20_xor(c, m, mlen, n, k)`: arguments `m n k`, result `(rc, c)`. -/
  crypto_stream_xchacha20_xor : Bytes → Bytes → Bytes → Int × Bytes
  /-- Call `crypto_scalarmult(q, n, p)`: arguments `n p`, result `(rc, q)`. -/
  crypto_scalarmult : Bytes → Bytes → Int × Bytes
  /-- Call `crypto_scalarmult_base(q, n)`: argument `n`, result `(rc, q)`. -/
  crypto_scalarmult_base : Bytes → Int × Bytes
  /-- Call `crypto_generichash_init(&h, key, keylen, outlen)`; a `NULL` key is `none`. -/
  crypto_generichash_init : Option Bytes → Nat → Int × St
  /-- Call `crypto_generichash_update(&h, in, inlen)`. -/
  crypto_generichash_update : St → Bytes → Int × St
  /-- Call `crypto_generichash_final(&h, out, outlen)`: result `(rc, out)`. -/
  crypto_generichash_final : St → Nat → Int × Bytes
  /-- Call `crypto_generichash(out, outlen, in, inlen, key, keylen)`: arguments
  `outlen in key`, result `(rc, out)`; a `NULL` key is `none`. -/
  crypto_generichash : Nat → Bytes → Option Bytes → Int × Bytes
  /-- Call `crypto_sign_detached(sig, NULL, m, mlen, sk)`: arguments `m sk`, where `sk` is
  the `crypto_sign_SECRETKEYBYTES` bytes read at the pointer; result `(rc, sig)`. -/
  crypto_sign_detached : Bytes → Bytes → Int × Bytes
  /-- Call `crypto_sign_verify_detached(sig, m, mlen, pk)`: arguments `sig m pk`. -/
  crypto_sign_verify_detached : Bytes → Bytes → Bytes → Int
  /-- Call `crypto_sign_seed_keypair(pk, sk, seed)`: argument `seed`, result `(rc, pk, sk)`. -/
  crypto_sign_seed_keypair : Bytes → Int × Bytes × Bytes
  /-- Call `randombytes(buf, size)`: the bytes written and the advanced random source. -/
  randombytes : W → Nat → Bytes × W
  /-- Call `sodium_init()`: its status code and the state of the library afterwards. -/
  sodium_init : W → Int × W

/-- The one-shot `crypto_generichash` as a call made by the running process: besides
`outlen`, the input and the key it is handed the state `W` of the process and of the
library, and it leaves a state.  The field `Sodium.crypto_generichash` is this call for a
library whose result is determined by the three arguments. -/
abbrev StatefulHash (W : Type) := W → Nat → Bytes → Option Bytes → (Int × Bytes) × W

/-- The struct `llarp_keypair`. -/
structure llarp_keypair where
  pub : Bytes
  sec : Bytes
deriving DecidableEq

namespace sodium

variable {St W : Type}

/-- Function `xchacha20(buff, k, n)`: the flag and the contents of the buffer afterwards. -/
def xchacha20 (S : Sodium St W) (buff : llarp_buffer_t) (k n : Bytes) : Bool × llarp_buffer_t :=
  let r := S.crypto_stream_xchacha20_xor buff n k
  (decide (r.1 = 0), r.2)

/-- Function `dh(shared, client_pk, server_pk, remote_key, local_key)`. -/
def dh (S : Sodium St W) (Z : Sizes) (client_pk server_pk remote_key local_key : Bytes) :
    Bool × Bytes :=
  let outsz := Z.SHAREDKEYSIZE
  let q := S.crypto_scalarmult local_key remote_key
  if q.1 = -1 then (false, q.2)
  else
    let h := (S.crypto_generichash_init none outsz).2
    let h := (S.crypto_generichash_update h (client_pk.take Z.PUBKEYSIZE)).2
    let h := (S.crypto_generichash_update h (server_pk.take Z.PUBKEYSIZE)).2
    let h := (S.crypto_generichash_update h (q.2.take Z.crypto_scalarmult_BYTES)).2
    let out := (S.crypto_generichash_final h outsz).2
    (true, out)

/-- Function `dh_client(shared, pk, n, sk)`. -/
def dh_client (S : Sodium St W) (Z : Sizes) (pk n sk : Bytes) : Bool × Bytes :=
  let local_pk := (S.crypto_scalarmult_base sk).2
  let r := dh S Z local_pk pk pk sk
  if r.1 then
    let g := S.crypto_generichash Z.SHAREDKEYSIZE (r.2.take Z.SHAREDKEYSIZE)
      (some (n.take Z.TUNNOUNCESIZE))
    (decide (g.1 ≠ -1), g.2)
  else (false, r.2)

/-- Function `dh_server(shared, pk, n, sk)`. -/
def dh_server (S : Sodium St W) (Z : Sizes) (pk n sk : Bytes) : Bool × Bytes :=
  let local_pk := (S.crypto_scalarmult_base sk).2
  let r := dh S Z pk local_pk pk sk
  if r.1 then
    let g := S.crypto_generichash Z.SHAREDKEYSIZE (r.2.take Z.SHAREDKEYSIZE)
      (some (n.take Z.TUNNOUNCESIZE))
    (decide (g.1 ≠ -1), g.2)
  else (false, r.2)

/-- Function `hash(result, buff)`. -/
def hash (S : Sodium St W) (Z : Sizes) (buff : llarp_buffer_t) : Bool × Bytes :=
  let g := S.crypto_generichash Z.HASHSIZE buff none
  (decide (g.1 ≠ -1), g.2)

/-- Function `hmac(result, buff, secret)`, called in the state `w`: `result` is the
previous contents of `*result`, `secret` the `llarp_seckey_t` the pointer designates and
`beyond` the bytes that follow it in memory (`crypto_generichash` reads `HMACSECSIZE`
bytes at the pointer).  It returns the flag, the contents of `*result` afterwards, and
the state the call leaves. -/
def hmac (G : StatefulHash W) (Z : Sizes) (w : W) (_result : Bytes) (buff : llarp_buffer_t)
    (secret beyond : Bytes) : (Bool × Bytes) × W :=
  let g := G w Z.sizeof_llarp_hash_t buff (some ((secret ++ beyond).take Z.HMACSECSIZE))
  ((decide (g.1.1 ≠ -1), g.1.2), g.2)

/-- Function `sign(result, secret, buff)`: `secret` is the `llarp_seckey_t` the pointer
designates and `beyond` the bytes that follow it in memory; `crypto_sign_detached` reads
`crypto_sign_SECRETKEYBYTES` bytes at the pointer, whatever `sizeof(llarp_seckey_t)` is. -/
def sign (S : Sodium St W) (Z : Sizes) (secret beyond : Bytes) (buff : llarp_buffer_t) :
    Bool × Bytes :=
  let g := S.crypto_sign_detached buff ((secret ++ beyond).take Z.crypto_sign_SECRETKEYBYTES)
  (decide (g.1 ≠ -1), g.2)

/-- Function `verify(pub, buff, sig)`. -/
def verify (S : Sodium St W) (pub : Bytes) (buff : llarp_buffer_t) (sig : Bytes) : Bool :=
  decide (S.crypto_sign_verify_detached sig buff pub ≠ -1)

/-- Function `randomize(buff)`: the new contents of the buffer and the advanced random source. -/
def randomize (S : Sodium St W) (w : W) (buff : llarp_buffer_t) : llarp_buffer_t × W :=
  S.randombytes w buff.length

/-- Function `keygen(keys)`: the secret is `sizeof(llarp_seckey_t)` random bytes, the public key is
the one `crypto_sign_seed_keypair` derives from it; the expanded key `sk[64]` is a local
that is dropped. -/
def keygen (S : Sodium St W) (Z : Sizes) (w : W) : llarp_keypair × W :=
  let r := S.randombytes w Z.SECKEYSIZE
  let sec := r.1
  let kp := S.crypto_sign_seed_keypair sec
  ({ pub := kp.2.1, sec := sec }, r.2)

end sodium

/-- The address of one of the nine static functions of `llarp::sodium`. -/
inductive CryptoFn where
  | xchacha20 | dh_client | dh_server | hash | hmac | sign | verify | randomize | keygen
deriving DecidableEq

/-- The function table `struct llarp_crypto`; `none` is a slot that holds no function. -/
structure llarp_crypto where
  xchacha20 : Option CryptoFn
  dh_client : Option CryptoFn
  dh_server : Option CryptoFn
  hash : Option CryptoFn
  hmac : Option CryptoFn
  sign : Option CryptoFn
  verify : Option CryptoFn
  randomize : Option CryptoFn
  keygen : Option CryptoFn
deriving DecidableEq

/-- How a call ends: it returns, or `abort()` ends the process. -/
inductive Outcome (α : Type) where
  | returned (a : α)
  | aborted
deriving DecidableEq

/-- The nine assignments `c->f = llarp::sodium::f` of `llarp_crypto_libsodium_init`. -/
def installed (c : llarp_crypto) : llarp_crypto :=
  { c with
    xchacha20 := some CryptoFn.xchacha20
    dh_client := some CryptoFn.dh_client
    dh_server := some CryptoFn.dh_server
    hash := some CryptoFn.hash
    hmac := some CryptoFn.hmac
    sign := some CryptoFn.sign
    verify := some CryptoFn.verify
    randomize := some CryptoFn.randomize
    keygen := some CryptoFn.keygen }

/-- Function `llarp_crypto_libsodium_init(c)`.  The first statement is `assert(sodium_init() != -1)`
with the `assert` of `<assert.h>`: where `NDEBUG` is defined the macro expands to
`((void)0)` and its argument is not evaluated; otherwise the argument is evaluated and the
process is aborted when it is false. -/
def llarp_crypto_libsodium_init {St W : Type} (S : Sodium St W) (NDEBUG : Bool) (w : W)
    (c : llarp_crypto) : Outcome llarp_crypto × W :=
  if NDEBUG then (Outcome.returned (installed c), w)
  else
    let r := S.sodium_init w
    if r.1 ≠ -1 then (Outcome.returned (installed c), r.2)
    else (Outcome.aborted, r.2)

namespace service

/-- The data members of `IServiceLookup` set by its constructor; `parent` is the address
held in the `ILookupHolder *`. -/
structure IServiceLookup where
  parent : Nat
  txid : Nat
  name : String
  m_created : Nat
deriving DecidableEq

/-- The virtual interface `ILookupHolder` over a holder state `H`: `PutLookup(lookup, tx)`
receives the address of the lookup, the object found there at the time of the call, and
the transaction id. -/
structure ILookupHolder (H : Type) where
  PutLookup : H → Nat → IServiceLookup → Nat → H

/-- A call made by the constructor of `IServiceLookup`. -/
inductive CtorCall where
  | llarp_time_now_ms
  | PutLookup (holder : Nat) (lookup : Nat) (obj : IServiceLookup) (tx : Nat)
deriving DecidableEq

/-- What the constructor leaves behind: the object, the state of the holder, and the
calls it made, in order. -/
structure Constructed (H : Type) where
  obj : IServiceLookup
  holder : H
  calls : List CtorCall

/-- Function `IServiceLookup::IServiceLookup(p, tx, n)`, constructing the object at the
address `this`; `h` is the state of the holder `*p` and `now` is what
`llarp_time_now_ms()` returns. -/
def IServiceLookup.ctor {H : Type} (V : ILookupHolder H) (now : Nat) (this : Nat) (p : Nat)
    (h : H) (tx : Nat) (n : String) : Constructed H :=
  -- member initialisers `parent(p), txid(tx), name(n)`, then `m_created = llarp_time_now_ms()`
  let obj : IServiceLookup := { parent := p, txid := tx, name := n, m_created := now }
  -- `p->PutLookup(this, tx)`
  { obj := obj
    holder := V.PutLookup h this obj tx
    calls := [CtorCall.llarp_time_now_ms, CtorCall.PutLookup p this obj tx] }

/-- The virtual functions `SendRequestViaPath` calls: `BuildRequestMessage()` on the
lookup (state `L`), returning a message pointer (`none` is the null pointer), and
`SendRoutingMessage(msg, r)` on the path (state `P`). -/
structure SendVirtuals (L P Msg R : Type) where
  BuildRequestMessage : L → Option Msg × L
  SendRoutingMessage : P → Msg → R → Bool × P

/-- A step of `SendRequestViaPath` visible from outside. -/
inductive SendCall (Msg R : Type) where
  | BuildRequestMessage
  | SendRoutingMessage (msg : Msg) (r : R)
  | delete (msg : Msg)
deriving DecidableEq

/-- What `SendRequestViaPath` leaves behind: its return value, the lookup, the path, and
the steps it took, in order. -/
structure Sent (L P Msg R : Type) where
  result : Bool
  lookup : L
  path : P
  calls : List (SendCall Msg R)

/-- Function `IServiceLookup::SendRequestViaPath(path, r)`. -/
def SendRequestViaPath {L P Msg R : Type} (V : SendVirtuals L P Msg R) (self : L) (path : P)
    (r : R) : Sent L P Msg R :=
  let b := V.BuildRequestMessage self
  match b.1 with
  | none =>
    { result := false, lookup := b.2, path := path, calls := [SendCall.BuildRequestMessage] }
  | some msg =>
    let s := V.SendRoutingMessage path msg r
    { result := s.1, lookup := b.2, path := s.2
      calls := [SendCall.BuildRequestMessage, SendCall.SendRoutingMessage msg r,
        SendCall.delete msg] }

end service

/-! ## The stream cipher and the key derivation as the specification words them -/

/-- Bytewise exclusive or of a buffer with a keystream. -/
def xorBytes (m ks : Bytes) : Bytes := List.zipWith (fun a b => a ^^^ b) m ks

/-- The hash "combining, in this order" a list of parts: an unkeyed generic hash of
`outlen` bytes that absorbs the parts one after the other. -/
def spec_combine {St W : Type} (S : Sodium St W) (outlen : Nat) (parts : List Bytes) : Bytes :=
  (S.crypto_generichash_final
    (parts.foldl (fun h x => (S.crypto_generichash_update h x).2)
      (S.crypto_generichash_init none outlen).2) outlen).2

/-- The base key: the `SHAREDKEYSIZE`-byte hash of the client public key, the server
public key and the agreement output, in this order. -/
def spec_base_key {St W : Type} (S : Sodium St W) (Z : Sizes)
    (client_pk server_pk agreement : Bytes) : Bytes :=
  spec_combine S Z.SHAREDKEYSIZE
    [client_pk.take Z.PUBKEYSIZE, server_pk.take Z.PUBKEYSIZE,
      agreement.take Z.crypto_scalarmult_BYTES]

/-- The shared key: the generic hash of the `SHAREDKEYSIZE`-byte base key, keyed by the
`TUNNOUNCESIZE`-byte nonce. -/
def spec_shared_key {St W : Type} (S : Sodium St W) (Z : Sizes)
    (client_pk server_pk agreement n : Bytes) : Bytes :=
  (S.crypto_generichash Z.SHAREDKEYSIZE
    ((spec_base_key S Z client_pk server_pk agreement).take Z.SHAREDKEYSIZE)
    (some (n.take Z.TUNNOUNCESIZE))).2

/-! ## Concrete instances

A small backend on which the definitions above can be evaluated.  It has the shape of
libsodium (a stream cipher that XORs with a keystream, a commutative agreement, an
incremental and a one-shot hash, and a signature scheme whose secret key is the seed
followed by the public key), on toy arithmetic. -/

/-- Pad with zeroes or cut to exactly `n` bytes. -/
def fit (n : Nat) (l : Bytes) : Bytes := (l ++ List.replicate n 0).take n

/-- A toy digest of `outlen` bytes. -/
def demoDigest (outlen : Nat) (data : Bytes) : Bytes :=
  (List.range outlen).map (fun i => data.foldl (fun a x => (a * 31 + x + 7) % 65521) i % 256)

/-- A toy keystream: it depends on the key, the nonce and the length only. -/
def demoStream (k n : Bytes) (len : Nat) : Bytes :=
  (List.range len).map (fun i => (k.sum + 3 * n.sum + i) % 256)

/-- The sizes used for evaluation. -/
def demoSizes : Sizes where
  PUBKEYSIZE := 32
  SECKEYSIZE := 32
  SHAREDKEYSIZE := 32
  HASHSIZE := 64
  sizeof_llarp_hash_t := 64
  HMACSECSIZE := 32
  TUNNOUNCESIZE := 32
  crypto_scalarmult_BYTES := 32
  crypto_sign_SECRETKEYBYTES := 64

/-- The same sizes with a 64-byte `llarp_seckey_t`. -/
def demoSizes64 : Sizes := { demoSizes with SECKEYSIZE := 64 }

/-- The status of a toy generic hash asked for `outlen` bytes: `-1` unless
`1 ≤ outlen ≤ 64`. -/
def demoHashStatus (outlen : Nat) : Int := if outlen = 0 ∨ 64 < outlen then -1 else 0

/-- The toy scalar read from a secret key. -/
def demoScalar (n : Bytes) : Nat := n.sum % 13 + 1

/-- The toy agreement: the point to the power of the scalar, modulo 251; an all-zero
output is the degenerate result. -/
def demoScalarmult (n p : Bytes) : Int × Bytes :=
  let q := p.headD 0 ^ demoScalar n % 251
  (if q = 0 then -1 else 0, q :: List.replicate 31 0)

/-- The toy backend; the hash state is the list of bytes absorbed so far, the state of
the library is the counter of its random source. -/
def demoSodium : Sodium Bytes Nat where
  crypto_stream_xchacha20_xor m n k := (0, xorBytes m (demoStream k n m.length))
  crypto_scalarmult := demoScalarmult
  crypto_scalarmult_base n := (0, 6 ^ demoScalar n % 251 :: List.replicate 31 0)
  crypto_generichash_init key outlen := (demoHashStatus outlen, outlen :: key.getD [])
  crypto_generichash_update h inp := (0, h ++ inp)
  crypto_generichash_final h outlen := (demoHashStatus outlen, demoDigest outlen h)
  crypto_generichash outlen inp key :=
    (demoHashStatus outlen, demoDigest outlen (outlen :: key.getD [] ++ inp))
  crypto_sign_detached m sk :=
    (0, sk.drop 32 ++ demoDigest 32 (demoDigest 32 (99 :: sk.take 32) ++ m))
  crypto_sign_verify_detached sig m pk :=
    if sig = pk ++ demoDigest 32 (pk ++ m) then 0 else -1
  crypto_sign_seed_keypair seed :=
    (0, demoDigest 32 (99 :: fit 32 seed), fit 32 seed ++ demoDigest 32 (99 :: fit 32 seed))
  randombytes w size := ((List.range size).map (fun i => (w * 37 + i * 11 + 5) % 256), w + 1)
  sodium_init w := (0, w + 1)

/-- The toy backend with a library initialisation that reports failure. -/
def failingInitSodium : Sodium Bytes Nat :=
  { demoSodium with sodium_init := fun w => (-1, w + 1) }

/-- The keypair of the first `keygen` call on the toy backend, from library state 0. -/
def demoClientKeys : llarp_keypair := (sodium.keygen demoSodium demoSizes 0).1

/-- The keypair of the `keygen` call that follows it. -/
def demoServerKeys : llarp_keypair :=
  (sodium.keygen demoSodium demoSizes (sodium.keygen demoSodium demoSizes 0).2).1

/-- The keypair of a `keygen` call where `llarp_seckey_t` has 64 bytes. -/
def demoKeys64 : llarp_keypair := (sodium.keygen demoSodium demoSizes64 0).1

/-- A function table with every slot empty. -/
def emptyTable : llarp_crypto where
  xchacha20 := none
  dh_client := none
  dh_server := none
  hash := none
  hmac := none
  sign := none
  verify := none
  randomize := none
  keygen := none

/-- The lookup address the toy holder finds under a transaction id. -/
def demoFind (h : List (Nat × Nat)) (t : Nat) : Option Nat :=
  (h.find? (fun e => e.1 == t)).map (fun e => e.2)

/-- A holder whose state is the list of the pairs (transaction id, lookup address) it
holds.  Its `PutLookup` inserts like `std::map::insert`: a lookup put under an id that is
live is not inserted, and the live entry stays. -/
def demoHolder : service.ILookupHolder (List (Nat × Nat)) where
  PutLookup h l _ t := if (demoFind h t).isSome then h else (t, l) :: h

/-- Whether the toy holder has an entry under a transaction id. -/
def demoHas (h : List (Nat × Nat)) (t : Nat) : Bool := (demoFind h t).isSome

/-- Toy virtual functions for `SendRequestViaPath`: the lookup is a number and builds no
message when it is 0, else the message `2 * self`; the path is the list of the messages
it was handed and accepts a message while it holds fewer than two. -/
def demoSend : service.SendVirtuals Nat (List Nat) Nat Unit where
  BuildRequestMessage self := (if self = 0 then none else some (2 * self), self)
  SendRoutingMessage path msg _ := (decide (path.length < 2), path ++ [msg])

/-! ## Theorems -/

namespace sodium

variable {St W : Type}

/-- XOR with a keystream at least as long as the buffer is undone by a second XOR. -/
theorem xorBytes_xorBytes (m ks : Bytes) (h : m.length ≤ ks.length) :
    xorBytes (xorBytes m ks) ks = m := by
  induction m generalizing ks with
  | nil => simp [xorBytes]
  | cons a m ih =>
    cases ks with
    | nil => simp at h
    | cons b ks =>
      have h1 : m.length ≤ ks.length := by simpa using h
      have h2 := ih ks h1
      simp only [xorBytes] at h2 ⊢
      simp [List.zipWith, h2, Nat.xor_assoc]

/-- XOR with a keystream at least as long as the buffer keeps the length. -/
theorem length_xorBytes (m ks : Bytes) (h : m.length ≤ ks.length) :
    (xorBytes m ks).length = m.length := by
  simp [xorBytes, List.length_zipWith, h]

/-- The flag and key of `dh`, unfolded. -/
theorem dh_eq (S : Sodium St W) (Z : Sizes) (client_pk server_pk remote_key local_key : Bytes) :
    dh S Z client_pk server_pk remote_key local_key =
      if (S.crypto_scalarmult local_key remote_key).1 = -1 then
        (false, (S.crypto_scalarmult local_key remote_key).2)
      else
        (true, spec_base_key S Z client_pk server_pk
          (S.crypto_scalarmult local_key remote_key).2) := by
  simp [dh, spec_base_key, spec_combine]

/-- C3 (stream-cipher involution).  When `crypto_stream_xchacha20_xor` keeps its contract
(status 0, output the input XORed with a keystream `ks k n len` of `len` bytes that
depends on the key, the nonce and the length only), `xchacha20` applied twice to any
buffer with the same key and nonce succeeds both times and gives back the buffer; the
intermediate buffer has the same length and is the buffer XORed with the keystream. -/
theorem xchacha20_involution (S : Sodium St W) (ks : Bytes → Bytes → Nat → Bytes)
    (hlen : ∀ k n len, (ks k n len).length = len)
    (hxor : ∀ m n k, S.crypto_stream_xchacha20_xor m n k = (0, xorBytes m (ks k n m.length)))
    (b : llarp_buffer_t) (k n : Bytes) :
    (xchacha20 S b k n).1 = true ∧
    (xchacha20 S (xchacha20 S b k n).2 k n).1 = true ∧
    (xchacha20 S (xchacha20 S b k n).2 k n).2 = b ∧
    (xchacha20 S b k n).2.length = b.length ∧
    (xchacha20 S (xchacha20 S b k n).2 k n).2.length = b.length ∧
    (xchacha20 S b k n).2 = xorBytes b (ks k n b.length) := by
  have hl : (xorBytes b (ks k n b.length)).length = b.length :=
    length_xorBytes _ _ (by rw [hlen])
  have hb : xorBytes (xorBytes b (ks k n b.length)) (ks k n b.length) = b :=
    xorBytes_xorBytes _ _ (by rw [hlen])
  simp [xchacha20, hxor, hl, hb]

/-- Witness for C3: the toy backend keeps the contract, and a four-byte buffer and the
empty buffer come back. -/
theorem xchacha20_involution_witness :
    (xchacha20 demoSodium (xchacha20 demoSodium [1, 2, 3, 255] [4, 5] [6]).2 [4, 5] [6]).2
        = [1, 2, 3, 255] ∧
      (xchacha20 demoSodium (xchacha20 demoSodium [] [4, 5] [6]).2 [4, 5] [6]) = (true, []) := by
  have hlen : ∀ k n len, (demoStream k n len).length = len := by
    intro k n len; simp [demoStream]
  have hxor : ∀ m n k, demoSodium.crypto_stream_xchacha20_xor m n k
      = (0, xorBytes m (demoStream k n m.length)) := by
    intro m n k; rfl
  have h1 := xchacha20_involution demoSodium demoStream hlen hxor [1, 2, 3, 255] [4, 5] [6]
  have h2 := xchacha20_involution demoSodium demoStream hlen hxor [] [4, 5] [6]
  exact ⟨h1.2.2.1, Prod.ext h2.2.1 h2.2.2.1⟩

/-- C1 (DH symmetry).  With `cpk` and `spk` the public keys `crypto_scalarmult_base`
gives for the client and server secrets, and assuming only that the agreement commutes,
`dh_client(spk, n, csk)` and `dh_server(cpk, n, ssk)` both fail, or both succeed with the
same shared key. -/
theorem dh_symmetry (S : Sodium St W) (Z : Sizes) (csk ssk n : Bytes)
    (hcomm : S.crypto_scalarmult csk (S.crypto_scalarmult_base ssk).2
      = S.crypto_scalarmult ssk (S.crypto_scalarmult_base csk).2) :
    ((dh_client S Z (S.crypto_scalarmult_base ssk).2 n csk).1 = false ∧
      (dh_server S Z (S.crypto_scalarmult_base csk).2 n ssk).1 = false) ∨
    ((dh_client S Z (S.crypto_scalarmult_base ssk).2 n csk).1 = true ∧
      (dh_server S Z (S.crypto_scalarmult_base csk).2 n ssk).1 = true ∧
      (dh_client S Z (S.crypto_scalarmult_base ssk).2 n csk).2
        = (dh_server S Z (S.crypto_scalarmult_base csk).2 n ssk).2) := by
  have h : dh_client S Z (S.crypto_scalarmult_base ssk).2 n csk
      = dh_server S Z (S.crypto_scalarmult_base csk).2 n ssk := by
    simp only [dh_client, dh_server, dh_eq, hcomm]
  rw [h]
  cases hb : (dh_server S Z (S.crypto_scalarmult_base csk).2 n ssk).1 <;> simp

/-- Witness for C1: on the toy backend the agreement of the secrets `[3, 1, 4]` and
`[5, 9]` commutes, and both sides succeed with the same key. -/
theorem dh_symmetry_witness :
    demoSodium.crypto_scalarmult [3, 1, 4] (demoSodium.crypto_scalarmult_base [5, 9]).2
        = demoSodium.crypto_scalarmult [5, 9] (demoSodium.crypto_scalarmult_base [3, 1, 4]).2 ∧
      (((dh_client demoSodium demoSizes (demoSodium.crypto_scalarmult_base [5, 9]).2
            [1, 2, 3] [3, 1, 4]).1 = false ∧
          (dh_server demoSodium demoSizes (demoSodium.crypto_scalarmult_base [3, 1, 4]).2
            [1, 2, 3] [5, 9]).1 = false) ∨
        ((dh_client demoSodium demoSizes (demoSodium.crypto_scalarmult_base [5, 9]).2
            [1, 2, 3] [3, 1, 4]).1 = true ∧
          (dh_server demoSodium demoSizes (demoSodium.crypto_scalarmult_base [3, 1, 4]).2
            [1, 2, 3] [5, 9]).1 = true ∧
          (dh_client demoSodium demoSizes (demoSodium.crypto_scalarmult_base [5, 9]).2
            [1, 2, 3] [3, 1, 4]).2
            = (dh_server demoSodium demoSizes (demoSodium.crypto_scalarmult_base [3, 1, 4]).2
              [1, 2, 3] [5, 9]).2)) :=
  ⟨by decide, dh_symmetry demoSodium demoSizes [3, 1, 4] [5, 9] [1, 2, 3] (by decide)⟩

/-- C10 (key-derivation steps).  When `dh_client(server_pk, n, client_sk)` succeeds its
output is the generic hash of the base key keyed by the nonce, the base key being the hash
of `crypto_scalarmult_base(client_sk)`, `server_pk` and
`crypto_scalarmult(client_sk, server_pk)` in this order; when
`dh_server(client_pk, n, server_sk)` succeeds its output is the same derivation from
`client_pk`, `crypto_scalarmult_base(server_sk)` and
`crypto_scalarmult(server_sk, client_pk)`, the client key still first. -/
theorem dh_key_derivation (S : Sodium St W) (Z : Sizes)
    (server_pk client_pk n client_sk server_sk : Bytes) :
    ((dh_client S Z server_pk n client_sk).1 = true →
      (dh_client S Z server_pk n client_sk).2
        = spec_shared_key S Z (S.crypto_scalarmult_base client_sk).2 server_pk
            (S.crypto_scalarmult client_sk server_pk).2 n) ∧
    ((dh_server S Z client_pk n server_sk).1 = true →
      (dh_server S Z client_pk n server_sk).2
        = spec_shared_key S Z client_pk (S.crypto_scalarmult_base server_sk).2
            (S.crypto_scalarmult server_sk client_pk).2 n) := by
  constructor
  · intro h
    simp only [dh_client, dh_eq] at h ⊢
    by_cases hq : (S.crypto_scalarmult client_sk server_pk).1 = -1
    · simp [hq] at h
    · simp [hq, spec_shared_key]
  · intro h
    simp only [dh_server, dh_eq] at h ⊢
    by_cases hq : (S.crypto_scalarmult server_sk client_pk).1 = -1
    · simp [hq] at h
    · simp [hq, spec_shared_key]

/-- Witness for C10: on the toy backend both calls succeed, and their outputs are the
derivation from the two public keys and the agreement output. -/
theorem dh_key_derivation_witness :
    ((dh_client demoSodium demoSizes [7, 7] [1, 2, 3] [3, 1, 4]).1 = true ∧
      (dh_client demoSodium demoSizes [7, 7] [1, 2, 3] [3, 1, 4]).2
        = spec_shared_key demoSodium demoSizes (demoSodium.crypto_scalarmult_base [3, 1, 4]).2
            [7, 7] (demoSodium.crypto_scalarmult [3, 1, 4] [7, 7]).2 [1, 2, 3]) ∧
    ((dh_server demoSodium demoSizes [8, 8] [1, 2, 3] [5, 9]).1 = true ∧
      (dh_server demoSodium demoSizes [8, 8] [1, 2, 3] [5, 9]).2
        = spec_shared_key demoSodium demoSizes [8, 8] (demoSodium.crypto_scalarmult_base [5, 9]).2
            (demoSodium.crypto_scalarmult [5, 9] [8, 8]).2 [1, 2, 3]) :=
  ⟨⟨by decide,
      (dh_key_derivation demoSodium demoSizes [7, 7] [8, 8] [1, 2, 3] [3, 1, 4] [5, 9]).1
        (by decide)⟩,
    ⟨by decide,
      (dh_key_derivation demoSodium demoSizes [7, 7] [8, 8] [1, 2, 3] [3, 1, 4] [5, 9]).2
        (by decide)⟩⟩

/-- Padding or cutting to `n` bytes gives `n` bytes. -/
theorem length_fit (n : Nat) (l : Bytes) : (fit n l).length = n := by
  simp [fit]

/-- The toy signature scheme is correct: a signature made with the secret key that
`crypto_sign_seed_keypair` expands from a seed verifies under the public key it derives. -/
theorem demoSodium_sign_correct (seed m : Bytes) :
    demoSodium.crypto_sign_verify_detached
      (demoSodium.crypto_sign_detached m (demoSodium.crypto_sign_seed_keypair seed).2.2).2 m
      (demoSodium.crypto_sign_seed_keypair seed).2.1 = 0 := by
  have h1 : (fit 32 seed ++ demoDigest 32 (99 :: fit 32 seed)).take 32 = fit 32 seed :=
    List.take_left' (length_fit 32 seed)
  have h2 : (fit 32 seed ++ demoDigest 32 (99 :: fit 32 seed)).drop 32
      = demoDigest 32 (99 :: fit 32 seed) :=
    List.drop_left' (length_fit 32 seed)
  simp only [demoSodium, h1, h2]
  simp

/-- The secret `keygen` writes on the toy backend with a 32-byte `llarp_seckey_t` has 32
bytes. -/
theorem demo_keygen_sec_length (w : Nat) :
    (keygen demoSodium demoSizes w).1.sec.length = 32 := by
  simp [keygen, demoSodium, demoSizes]

/-- On the toy backend with a 32-byte `llarp_seckey_t`, the signature that `sign` makes
with the secret of a `keygen` keypair verifies under the public key of the keypair
exactly when the 32 bytes that follow the secret in memory are that public key. -/
theorem demo_sign_accepted_iff (w : Nat) (beyond b : Bytes) :
    verify demoSodium (keygen demoSodium demoSizes w).1.pub b
        (sign demoSodium demoSizes (keygen demoSodium demoSizes w).1.sec beyond b).2 = true
      ↔ beyond.take 32 = (keygen demoSodium demoSizes w).1.pub := by
  have hlen := demo_keygen_sec_length w
  generalize hsec : (keygen demoSodium demoSizes w).1.sec = sec at hlen
  have hpub : (keygen demoSodium demoSizes w).1.pub = demoDigest 32 (99 :: sec) := by
    have hf : fit 32 sec = sec := by
      unfold fit
      exact List.take_left' hlen
    rw [← hsec] at hf ⊢
    simp only [keygen, demoSodium] at hf ⊢
    rw [hf]
  have h1 : ((sec ++ beyond).take 64).take 32 = sec := by
    rw [List.take_take]
    exact List.take_left' hlen
  have h2 : ((sec ++ beyond).take 64).drop 32 = beyond.take 32 := by
    rw [List.drop_take, List.drop_left' hlen]
  rw [hpub]
  simp only [verify, sign, demoSodium, demoSizes, h1, h2]
  simp

/-- The toy agreement commutes on the public keys `crypto_scalarmult_base` gives. -/
theorem demoSodium_scalarmult_comm (a b : Bytes) :
    demoSodium.crypto_scalarmult a (demoSodium.crypto_scalarmult_base b).2
      = demoSodium.crypto_scalarmult b (demoSodium.crypto_scalarmult_base a).2 := by
  have h : (6 ^ demoScalar b % 251) ^ demoScalar a % 251
      = (6 ^ demoScalar a % 251) ^ demoScalar b % 251 := by
    rw [← Nat.pow_mod, ← Nat.pow_mod, ← pow_mul, ← pow_mul, Nat.mul_comm]
  simp [demoSodium, demoScalarmult, h]

/-- What `dh_client` does report: it fails exactly when `crypto_scalarmult` returns `-1`
or the nonce-mixing `crypto_generichash` returns `-1`. -/
theorem dh_client_fails_iff (S : Sodium St W) (Z : Sizes) (pk n sk : Bytes) :
    (dh_client S Z pk n sk).1 = false ↔
      (S.crypto_scalarmult sk pk).1 = -1 ∨
      (S.crypto_generichash Z.SHAREDKEYSIZE
        ((spec_base_key S Z (S.crypto_scalarmult_base sk).2 pk
          (S.crypto_scalarmult sk pk).2).take Z.SHAREDKEYSIZE)
        (some (n.take Z.TUNNOUNCESIZE))).1 = -1 := by
  simp only [dh_client, dh_eq]
  by_cases hq : (S.crypto_scalarmult sk pk).1 = -1
  · simp [hq]
  · simp [hq]

/-- What `dh_server` does report: it fails exactly when `crypto_scalarmult` returns `-1`
or the nonce-mixing `crypto_generichash` returns `-1`. -/
theorem dh_server_fails_iff (S : Sodium St W) (Z : Sizes) (pk n sk : Bytes) :
    (dh_server S Z pk n sk).1 = false ↔
      (S.crypto_scalarmult sk pk).1 = -1 ∨
      (S.crypto_generichash Z.SHAREDKEYSIZE
        ((spec_base_key S Z pk (S.crypto_scalarmult_base sk).2
          (S.crypto_scalarmult sk pk).2).take Z.SHAREDKEYSIZE)
        (some (n.take Z.TUNNOUNCESIZE))).1 = -1 := by
  simp only [dh_server, dh_eq]
  by_cases hq : (S.crypto_scalarmult sk pk).1 = -1
  · simp [hq]
  · simp [hq]

/-- What `keygen` writes: the secret is the random bytes themselves, the public key is
the one `crypto_sign_seed_keypair` derives from them; the expanded secret key that
`crypto_sign_seed_keypair` returns is not kept. -/
theorem keygen_eq (S : Sodium St W) (Z : Sizes) (w : W) :
    (keygen S Z w).1.sec = (S.randombytes w Z.SECKEYSIZE).1 ∧
    (keygen S Z w).1.pub
      = (S.crypto_sign_seed_keypair (S.randombytes w Z.SECKEYSIZE).1).2.1 ∧
    (keygen S Z w).2 = (S.randombytes w Z.SECKEYSIZE).2 :=
  ⟨rfl, rfl, rfl⟩

/-- C2 (signature soundness) fails on the code.  The toy signature scheme is correct for
the key pairs `crypto_sign_seed_keypair` returns.  `keygen` keeps the seed and drops the
expanded secret key, and `crypto_sign_detached` reads 64 bytes at the secret.  With a
32-byte `llarp_seckey_t` followed in memory by 32 zero bytes, or by the public key of the
next keypair, `sign` succeeds and `verify` under the published public key rejects the
signature; with a 64-byte `llarp_seckey_t` it does so whatever follows in memory. -/
theorem keygen_sign_verify_rejects :
    (∀ seed m : Bytes,
      demoSodium.crypto_sign_verify_detached
        (demoSodium.crypto_sign_detached m (demoSodium.crypto_sign_seed_keypair seed).2.2).2 m
        (demoSodium.crypto_sign_seed_keypair seed).2.1 = 0) ∧
    (sign demoSodium demoSizes demoClientKeys.sec (List.replicate 32 0) [1, 2, 3]).1 = true ∧
    verify demoSodium demoClientKeys.pub [1, 2, 3]
      (sign demoSodium demoSizes demoClientKeys.sec (List.replicate 32 0) [1, 2, 3]).2
        = false ∧
    (sign demoSodium demoSizes demoClientKeys.sec demoServerKeys.pub [1, 2, 3]).1 = true ∧
    verify demoSodium demoClientKeys.pub [1, 2, 3]
      (sign demoSodium demoSizes demoClientKeys.sec demoServerKeys.pub [1, 2, 3]).2
        = false ∧
    (∀ beyond : Bytes,
      (sign demoSodium demoSizes64 demoKeys64.sec beyond [1, 2, 3]).1 = true ∧
      verify demoSodium demoKeys64.pub [1, 2, 3]
        (sign demoSodium demoSizes64 demoKeys64.sec beyond [1, 2, 3]).2 = false) := by
  refine ⟨demoSodium_sign_correct, by decide, by decide, by decide, by decide, ?_⟩
  intro beyond
  have hlen : demoKeys64.sec.length = 64 := by decide
  have hread : ∀ y : Bytes, (demoKeys64.sec ++ y).take 64 = demoKeys64.sec :=
    fun y => List.take_left' hlen
  have hsign : sign demoSodium demoSizes64 demoKeys64.sec beyond [1, 2, 3]
      = sign demoSodium demoSizes64 demoKeys64.sec [] [1, 2, 3] := by
    simp only [sign, demoSizes64, demoSizes, hread]
  rw [hsign]
  exact ⟨by decide, by decide⟩

/-- C4 (keygen keypairs as agreement keypairs) fails on the code.  On the toy backend,
whose agreement commutes, the public key `keygen` publishes is not the one
`crypto_scalarmult_base` derives from the secret, and for two keypairs from successive
`keygen` calls `dh_client` and `dh_server` both succeed with different shared keys. -/
theorem keygen_not_agreement_keys :
    (∀ a b : Bytes,
      demoSodium.crypto_scalarmult a (demoSodium.crypto_scalarmult_base b).2
        = demoSodium.crypto_scalarmult b (demoSodium.crypto_scalarmult_base a).2) ∧
    demoClientKeys.pub ≠ (demoSodium.crypto_scalarmult_base demoClientKeys.sec).2 ∧
    demoServerKeys.pub ≠ (demoSodium.crypto_scalarmult_base demoServerKeys.sec).2 ∧
    (dh_client demoSodium demoSizes demoServerKeys.pub [1, 2, 3] demoClientKeys.sec).1 = true ∧
    (dh_server demoSodium demoSizes demoClientKeys.pub [1, 2, 3] demoServerKeys.sec).1 = true ∧
    (dh_client demoSodium demoSizes demoServerKeys.pub [1, 2, 3] demoClientKeys.sec).2
      ≠ (dh_server demoSodium demoSizes demoClientKeys.pub [1, 2, 3] demoServerKeys.sec).2 :=
  ⟨demoSodium_scalarmult_comm, by decide, by decide, by decide, by decide, by decide⟩

end sodium

/-- With assertions compiled in, `llarp_crypto_libsodium_init` calls `sodium_init` first;
it aborts when that returns `-1` and otherwise returns the table with the nine
operations installed. -/
theorem init_with_assert {St W : Type} (S : Sodium St W) (w : W) (c : llarp_crypto) :
    llarp_crypto_libsodium_init S false w c
      = (if (S.sodium_init w).1 = -1 then Outcome.aborted else Outcome.returned (installed c),
          (S.sodium_init w).2) := by
  by_cases h : (S.sodium_init w).1 = -1 <;> simp [llarp_crypto_libsodium_init, h]

/-- With `NDEBUG` defined, `llarp_crypto_libsodium_init` never calls `sodium_init`: it
returns the installed table and leaves the library state as it was. -/
theorem init_with_NDEBUG {St W : Type} (S : Sodium St W) (w : W) (c : llarp_crypto) :
    llarp_crypto_libsodium_init S true w c = (Outcome.returned (installed c), w) := by
  simp [llarp_crypto_libsodium_init]

/-- C8 (initialisation failure is fatal) fails on the code when `NDEBUG` is defined.  On
a backend whose `sodium_init` returns `-1`, the build with assertions aborts, and the
build with `NDEBUG` returns the table with all nine operations installed, the library
state untouched: `sodium_init` sits inside `assert` and is not called at all. -/
theorem init_failure_not_fatal_under_NDEBUG :
    (failingInitSodium.sodium_init 0).1 = -1 ∧
    llarp_crypto_libsodium_init failingInitSodium false 0 emptyTable = (Outcome.aborted, 1) ∧
    llarp_crypto_libsodium_init failingInitSodium true 0 emptyTable
      = (Outcome.returned (installed emptyTable), 0) ∧
    (installed emptyTable).xchacha20 = some CryptoFn.xchacha20 ∧
    (installed emptyTable).keygen = some CryptoFn.keygen :=
  ⟨by decide, by decide, by decide, by decide, by decide⟩

namespace service

/-- C5 (registration at construction).  The constructor sets `parent`, `txid` and `name`
from its arguments, records the time, and then calls `PutLookup` once, on the holder it
was given, with the new lookup and `t`.  So for a holder whose `PutLookup` inserts into
its map (after `PutLookup(l, t)` the entry found under `t` is `l`, or, where `t` was
live, the live entry that it kept), right after construction `has(t)` is true, and the
entry found under `t` is the new lookup whenever `t` was not live before. -/
theorem ctor_registers {H : Type} (V : ILookupHolder H) (find : H → Nat → Option Nat)
    (has : H → Nat → Bool)
    (hput : ∀ h l o t, find (V.PutLookup h l o t) t = some l ∨
      ((find h t).isSome = true ∧ find (V.PutLookup h l o t) t = find h t))
    (hhas : ∀ h t, has h t = (find h t).isSome)
    (now this p : Nat) (h : H) (t : Nat) (n : String) :
    (IServiceLookup.ctor V now this p h t n).obj
        = { parent := p, txid := t, name := n, m_created := now } ∧
    (IServiceLookup.ctor V now this p h t n).calls
        = [CtorCall.llarp_time_now_ms,
            CtorCall.PutLookup p this (IServiceLookup.ctor V now this p h t n).obj t] ∧
    (IServiceLookup.ctor V now this p h t n).holder
        = V.PutLookup h this (IServiceLookup.ctor V now this p h t n).obj t ∧
    has (IServiceLookup.ctor V now this p h t n).holder t = true ∧
    (find h t = none →
      find (IServiceLookup.ctor V now this p h t n).holder t = some this) := by
  refine ⟨rfl, rfl, rfl, ?_, ?_⟩
  · rw [hhas]
    simp only [IServiceLookup.ctor]
    rcases hput h this { parent := p, txid := t, name := n, m_created := now } t with h1 | h1
    · rw [h1]; rfl
    · rw [h1.2]; exact h1.1
  · intro hfree
    simp only [IServiceLookup.ctor]
    rcases hput h this { parent := p, txid := t, name := n, m_created := now } t with h1 | h1
    · exact h1
    · rw [hfree] at h1
      exact absurd h1.1 (by simp)

/-- C6 (postcondition of `SendRequestViaPath`).  If `BuildRequestMessage` gives no message
the result is false, the path is untouched and `SendRoutingMessage` is not called;
otherwise `SendRoutingMessage` is called once, with the built message, the message is then
deleted, and the result is what `SendRoutingMessage` returned.  So the result is true
exactly when a message was built and the path accepted it; the lookup is left as
`BuildRequestMessage` left it. -/
theorem SendRequestViaPath_post {L P Msg R : Type} (V : SendVirtuals L P Msg R) (self : L)
    (path : P) (r : R) :
    ((V.BuildRequestMessage self).1 = none →
      (SendRequestViaPath V self path r).result = false ∧
      (SendRequestViaPath V self path r).path = path ∧
      (SendRequestViaPath V self path r).calls = [SendCall.BuildRequestMessage]) ∧
    (∀ msg, (V.BuildRequestMessage self).1 = some msg →
      (SendRequestViaPath V self path r).result = (V.SendRoutingMessage path msg r).1 ∧
      (SendRequestViaPath V self path r).path = (V.SendRoutingMessage path msg r).2 ∧
      (SendRequestViaPath V self path r).calls
        = [SendCall.BuildRequestMessage, SendCall.SendRoutingMessage msg r,
            SendCall.delete msg]) ∧
    ((SendRequestViaPath V self path r).result = true ↔
      ∃ msg, (V.BuildRequestMessage self).1 = some msg ∧
        (V.SendRoutingMessage path msg r).1 = true) ∧
    (SendRequestViaPath V self path r).lookup = (V.BuildRequestMessage self).2 := by
  cases hb : (V.BuildRequestMessage self).1 with
  | none => simp [SendRequestViaPath, hb]
  | some msg => simp [SendRequestViaPath, hb]

/-- The toy holder inserts into its map without replacing a live entry. -/
theorem demoHolder_put (h : List (Nat × Nat)) (l : Nat) (o : IServiceLookup) (t : Nat) :
    demoFind (demoHolder.PutLookup h l o t) t = some l ∨
      ((demoFind h t).isSome = true ∧
        demoFind (demoHolder.PutLookup h l o t) t = demoFind h t) := by
  by_cases hl : (demoFind h t).isSome = true
  · right
    simp [demoHolder, hl]
  · left
    have hp : demoHolder.PutLookup h l o t = (t, l) :: h := by
      simp [demoHolder, hl]
    rw [hp]
    simp [demoFind]

/-- Witness for C5: a lookup constructed at address 64 with the free id 7 on the toy
holder, which holds an entry under 3, is found under 7 afterwards, and the entry under 3
is still there. -/
theorem ctor_registers_witness :
    demoFind [(3, 32)] 7 = none ∧
    (IServiceLookup.ctor demoHolder 1000 64 16 [(3, 32)] 7 "svc").obj
        = { parent := 16, txid := 7, name := "svc", m_created := 1000 } ∧
    (IServiceLookup.ctor demoHolder 1000 64 16 [(3, 32)] 7 "svc").calls
        = [CtorCall.llarp_time_now_ms,
            CtorCall.PutLookup 16 64
              (IServiceLookup.ctor demoHolder 1000 64 16 [(3, 32)] 7 "svc").obj 7] ∧
    demoHas (IServiceLookup.ctor demoHolder 1000 64 16 [(3, 32)] 7 "svc").holder 7 = true ∧
    demoFind (IServiceLookup.ctor demoHolder 1000 64 16 [(3, 32)] 7 "svc").holder 7
      = some 64 ∧
    demoFind (IServiceLookup.ctor demoHolder 1000 64 16 [(3, 32)] 7 "svc").holder 3
      = some 32 :=
  ⟨by decide,
    (ctor_registers demoHolder demoFind demoHas demoHolder_put (fun _ _ => rfl)
      1000 64 16 [(3, 32)] 7 "svc").1,
    (ctor_registers demoHolder demoFind demoHas demoHolder_put (fun _ _ => rfl)
      1000 64 16 [(3, 32)] 7 "svc").2.1,
    (ctor_registers demoHolder demoFind demoHas demoHolder_put (fun _ _ => rfl)
      1000 64 16 [(3, 32)] 7 "svc").2.2.2.1,
    (ctor_registers demoHolder demoFind demoHas demoHolder_put (fun _ _ => rfl)
      1000 64 16 [(3, 32)] 7 "svc").2.2.2.2 (by decide),
    by decide⟩

/-- Witness for C6: on the toy virtual functions the lookup 0 builds no message and the
call fails without touching the path; the lookup 5 builds the message 10, which the empty
path accepts. -/
theorem SendRequestViaPath_post_witness :
    ((SendRequestViaPath demoSend 0 [] ()).result = false ∧
      (SendRequestViaPath demoSend 0 [] ()).path = [] ∧
      (SendRequestViaPath demoSend 0 [] ()).calls = [SendCall.BuildRequestMessage]) ∧
    ((SendRequestViaPath demoSend 5 [] ()).result = (demoSend.SendRoutingMessage [] 10 ()).1 ∧
      (SendRequestViaPath demoSend 5 [] ()).path = (demoSend.SendRoutingMessage [] 10 ()).2 ∧
      (SendRequestViaPath demoSend 5 [] ()).calls
        = [SendCall.BuildRequestMessage, SendCall.SendRoutingMessage 10 (),
            SendCall.delete 10]) :=
  ⟨(SendRequestViaPath_post demoSend 0 [] ()).1 (by decide),
    (SendRequestViaPath_post demoSend 5 [] ()).2.1 10 (by decide)⟩

end service

end llarp
